import Mathlib

/-!
Verification development for the application-automation repository.

This file gives a shallow embedding, in Lean 4, of the pure logic of the
repository's form-filling core: the FormTracker idempotency ledger and the
fill executors (src/autofill/form-filler.ts together with the form-tracker
module appended to that file), field deduplication and label resolution
(src/autofill/form-extractor.ts), profile path resolution and option
matching (the question-handler module), the page-state classifier
(src/autofill/application-navigator.ts), and the autonomous agent loop
(src/ui/overlay-ui.ts).

Browser interaction (Playwright) is modelled by explicit page values:
a page is a finite association of selectors to element descriptions, and
every DOM read that the TypeScript performs becomes a lookup in that value.
Fill functions additionally return the list of page interactions (clicks,
value assignments, option selections) they would have performed, so that
no-op behaviour is expressible.  JavaScript Map and Set are modelled as
association lists and lists with the same insertion-order semantics.
-/

/-! ## String utilities

JavaScript string operations used by the source (`toLowerCase`, `includes`,
`split`, `replace(/\s+/g, ' ').trim()`) are re-implemented structurally over
`String.data` so that every theorem below can be settled by kernel
evaluation. -/

/-- Case-map of a string, character by character (models `toLowerCase` on
the ASCII inputs the source deals in). -/
def lowerString (s : String) : String :=
  ⟨s.data.map Char.toLower⟩

/-- Whether `needle` occurs as a contiguous run inside `hay`
(models JavaScript `hay.includes(needle)`). -/
def listContainsRun : List Char → List Char → Bool
  | hay, needle =>
    match hay with
    | [] => needle.isEmpty
    | _ :: t => needle.isPrefixOf hay || listContainsRun t needle

/-- `strIncludes s t` models `s.includes(t)`. -/
def strIncludes (s t : String) : Bool :=
  listContainsRun s.data t.data

/-- Case-insensitive containment: `strIncludesCI s t` models
`s.toLowerCase().includes(t.toLowerCase())`. -/
def strIncludesCI (s t : String) : Bool :=
  strIncludes (lowerString s) (lowerString t)

/-- Splits a character list at every occurrence of `sep`. -/
def splitCharsOn (sep : Char) : List Char → List Char → List String
  | acc, [] => [⟨acc.reverse⟩]
  | acc, c :: rest =>
    if c = sep then ⟨acc.reverse⟩ :: splitCharsOn sep [] rest
    else splitCharsOn sep (c :: acc) rest

/-- `splitOnDot s` models `s.split('.')`. -/
def splitOnDot (s : String) : List String :=
  splitCharsOn '.' [] s.data

/-- Breaks a character list into maximal whitespace-free words. -/
def wordsOfChars : List Char → List Char → List (List Char)
  | acc, [] => if acc.isEmpty then [] else [acc.reverse]
  | acc, c :: rest =>
    if c.isWhitespace then
      if acc.isEmpty then wordsOfChars [] rest
      else acc.reverse :: wordsOfChars [] rest
    else wordsOfChars (c :: acc) rest

/-- `squish s` models `s.replace(/\s+/g, ' ').trim()`: internal whitespace
runs collapse to single spaces and outer whitespace is removed. -/
def squish (s : String) : String :=
  ⟨(List.intersperse [' '] (wordsOfChars [] s.data)).flatten⟩

/-- First 47 characters followed by an ellipsis when over 50 characters
(the tracker's `truncateValue`). -/
def truncateValue (value : String) : String :=
  if value.length > 50 then ⟨value.data.take 47⟩ ++ "..." else value

/-! ## FormTracker (form-tracker module)

`filledFields` and `failedFields` are JavaScript `Map`s (insertion-ordered,
`set` overwrites in place); `attemptedSelectors` is a JavaScript `Set`.
The `timestamp : Date` field of the source's record is outside the
embedding and omitted. -/

/-- One successful fill, as stored by the tracker. -/
structure FieldFillRecord where
  selector : String
  label : String
  value : String
  success : Bool
  module : String
deriving DecidableEq, Repr

/-- One failed fill, as stored by the tracker. -/
structure FailInfo where
  label : String
  reason : String
deriving DecidableEq, Repr

/-- The idempotency ledger shared by all fill passes. -/
structure FormTracker where
  filledFields : List (String × FieldFillRecord)
  failedFields : List (String × FailInfo)
  attemptedSelectors : List String
deriving DecidableEq, Repr

/-- JavaScript `Map.set`: replace the binding in place when the key is
present, append otherwise. -/
def mapSet {β : Type} [DecidableEq β] (m : List (String × β)) (k : String) (v : β) :
    List (String × β) :=
  if m.any (fun p => p.1 = k) then
    m.map (fun p => if p.1 = k then (k, v) else p)
  else m ++ [(k, v)]

/-- JavaScript `Map.get`-style lookup. -/
def mapGet {β : Type} (m : List (String × β)) (k : String) : Option β :=
  (m.find? (fun p => p.1 = k)).map (fun p => p.2)

/-- The fresh tracker. -/
def FormTracker.empty : FormTracker := ⟨[], [], []⟩

/-- `isFieldFilled`: a field counts as filled when it has a success record
or its selector has already been attempted. -/
def FormTracker.isFieldFilled (t : FormTracker) (selector : String) : Bool :=
  t.filledFields.any (fun p => p.1 = selector) || t.attemptedSelectors.contains selector

/-- `markAttempted`: JavaScript `Set.add`. -/
def FormTracker.markAttempted (t : FormTracker) (selector : String) : FormTracker :=
  { t with attemptedSelectors :=
      if t.attemptedSelectors.contains selector then t.attemptedSelectors
      else t.attemptedSelectors ++ [selector] }

/-- `recordFill`: skipped when a success record already exists, otherwise
stores the (truncated) value under the selector. -/
def FormTracker.recordFill (t : FormTracker) (selector label value module : String) :
    FormTracker :=
  if t.filledFields.any (fun p => p.1 = selector) then t
  else
    { t with filledFields := t.filledFields ++
        [(selector, ⟨selector, (if label = "" then selector else label),
                     truncateValue value, true, module⟩)] }

/-- `recordFailure`: stores (or overwrites) the failure reason for the
selector. -/
def FormTracker.recordFailure (t : FormTracker) (selector label reason module : String) :
    FormTracker :=
  { t with failedFields :=
      mapSet t.failedFields selector ⟨(if label = "" then selector else label), reason⟩ }

/-- `reset`: clears all three ledgers. -/
def FormTracker.reset (_t : FormTracker) : FormTracker := ⟨[], [], []⟩

/-! ## Page model and fill executors (form-filler.ts) -/

/-- One DOM element as the fill executors observe it: visibility, the
current input value, whether the tag is `select`, and for selects the
`(value, text)` option pairs. -/
structure PageEl where
  visible : Bool
  value : String
  isSelect : Bool
  options : List (String × String)
deriving DecidableEq, Repr

/-- A page: selectors mapped to elements, in DOM order.  `page.$ (sel)`
becomes a first-match lookup. -/
def PageModel := List (String × PageEl)

/-- `page.$ (selector)`. -/
def pageFind (page : PageModel) (selector : String) : Option PageEl :=
  (page.find? (fun p => p.1 = selector)).map (fun p => p.2)

/-- One page interaction performed by a fill executor. -/
inductive Interaction where
  | clickEl (selector : String)
  | fillEl (selector : String) (value : String)
  | selectByLabel (selector : String) (value : String)
  | selectByValue (selector : String) (value : String)
deriving DecidableEq, Repr

/-- Result of one fill call: the returned boolean, the tracker afterwards,
and the page interactions performed. -/
structure FillResult where
  ok : Bool
  tracker : FormTracker
  interactions : List Interaction
deriving DecidableEq, Repr

/-- `fillTextField` of form-filler.ts.  Already-filled selectors return at
once; a missing or invisible element records a failure; an element already
holding the target value returns `false` with no record; otherwise the
element is clicked, cleared, filled and a success record is written.  (The
surrounding `try`/`catch` never fires in this page model, which cannot
throw.) -/
def fillTextField (page : PageModel) (t : FormTracker)
    (selector value label module : String) : FillResult :=
  if t.isFieldFilled selector then ⟨false, t, []⟩
  else
    let t1 := t.markAttempted selector
    match pageFind page selector with
    | none => ⟨false, t1.recordFailure selector label "Element not found" module, []⟩
    | some el =>
      if !el.visible then
        ⟨false, t1.recordFailure selector label "Element not visible" module, []⟩
      else if el.value = value then
        ⟨false, t1, []⟩
      else
        ⟨true, t1.recordFill selector label value module,
          [.clickEl selector, .fillEl selector "", .fillEl selector value]⟩

/-- `fillSelectField` of form-filler.ts.  Selection is attempted by option
label text, then by option value; a match records a success, no match
records the thrown error as a failure.  (The thrown Playwright error text
is not statable; a fixed stand-in reason is used.) -/
def fillSelectField (page : PageModel) (t : FormTracker)
    (selector value label module : String) : FillResult :=
  if t.isFieldFilled selector then ⟨false, t, []⟩
  else
    let t1 := t.markAttempted selector
    match pageFind page selector with
    | none => ⟨false, t1.recordFailure selector label "Element not found" module, []⟩
    | some el =>
      if el.options.any (fun o => o.2 = value) then
        ⟨true, t1.recordFill selector label value module, [.selectByLabel selector value]⟩
      else if el.options.any (fun o => o.1 = value) then
        ⟨true, t1.recordFill selector label value module,
          [.selectByLabel selector value, .selectByValue selector value]⟩
      else
        ⟨false, t1.recordFailure selector label "Error: selectOption did not match" module,
          [.selectByLabel selector value, .selectByValue selector value]⟩

/-- Whether the tracker holds a successful FillRecord for the selector. -/
def FormTracker.hasSuccessRecord (t : FormTracker) (selector : String) : Bool :=
  t.filledFields.any (fun p => p.1 = selector)

/-- The basic-fields pass of `autofillForm`, one candidate selector at a
time: skip candidates whose element is missing or invisible, fill by tag
kind, stop at the first success. -/
def tryCandidates (page : PageModel) (t : FormTracker) (value label : String) :
    List String → FormTracker × Bool
  | [] => (t, false)
  | sel :: rest =>
    match pageFind page sel with
    | none => tryCandidates page t value label rest
    | some el =>
      if !el.visible then tryCandidates page t value label rest
      else
        let r := if el.isSelect then fillSelectField page t sel value label "BasicFields"
                 else fillTextField page t sel value label "BasicFields"
        if r.ok then (r.tracker, true) else tryCandidates page r.tracker value label rest

/-- The outer loop of `autofillForm` step 1 over the basic fields: a field
with no profile value is skipped, otherwise its candidate selectors are
tried in order. -/
def autofillBasicPass (page : PageModel) (t : FormTracker) :
    List (String × Option String × List String) → FormTracker
  | [] => t
  | (_, none, _) :: rest => autofillBasicPass page t rest
  | (label, some v, sels) :: rest =>
      autofillBasicPass page (tryCandidates page t v label sels).1 rest

/-! ## Field extraction (form-extractor.ts) -/

/-- The parts of an `ExtractedField` the claims are about. -/
structure ExtractedField where
  selector : String
  label : String
  options : Option (List (String × String))
deriving DecidableEq, Repr

/-- The dedup key of a field (`field.selector || field.label`). -/
def fieldKey (f : ExtractedField) : String :=
  if f.selector = "" then f.label else f.selector

/-- `deduplicateFields`: keep the first field for each key; keyless fields
are dropped. -/
def deduplicateFieldsGo (seen : List String) : List ExtractedField → List ExtractedField
  | [] => []
  | f :: rest =>
    if fieldKey f ≠ "" && !seen.contains (fieldKey f) then
      f :: deduplicateFieldsGo (seen ++ [fieldKey f]) rest
    else deduplicateFieldsGo seen rest

/-- `deduplicateFields` of form-extractor.ts. -/
def deduplicateFields (fields : List ExtractedField) : List ExtractedField :=
  deduplicateFieldsGo [] fields

/-- One text input as `extractTextInputs` sees it while resolving its
label: the aria-label and placeholder attributes, the element id, the text
of an associated `label[for=id]` element (empty when there is none or its
text is empty), and the text of the labelled child of the nearest ancestor
container (same convention), plus the name attribute. -/
structure TextInputEl where
  ariaLabel : String
  placeholder : String
  id : String
  labelForText : String
  containerLabelText : String
  name : String
deriving DecidableEq, Repr

/-- Label resolution of `extractTextInputs` (form-extractor.ts lines
176-193): start from `aria-label || placeholder`; when that is empty and
the element has an id, use the `label[for]` text; when still empty, use
the ancestor container's labelled child; finally collapse whitespace. -/
def resolveLabel (el : TextInputEl) : String :=
  let l0 := if el.ariaLabel ≠ "" then el.ariaLabel else el.placeholder
  let l1 := if l0 = "" && el.id ≠ "" then el.labelForText else l0
  let l2 := if l1 = "" then el.containerLabelText else l1
  squish l2

/-- Modelled from the spec (claim C4's wording), for refinement comparison
only: first non-empty of ARIA attribute, explicit label association,
placeholder, ancestor container's labelled child, raw name, raw id, and a
positional fallback `Field N`. -/
def specLabelResolve (el : TextInputEl) (idx : Nat) : String :=
  if el.ariaLabel ≠ "" then squish el.ariaLabel
  else if el.labelForText ≠ "" then squish el.labelForText
  else if el.placeholder ≠ "" then squish el.placeholder
  else if el.containerLabelText ≠ "" then squish el.containerLabelText
  else if el.name ≠ "" then el.name
  else if el.id ≠ "" then el.id
  else "Field " ++ toString (idx + 1)

/-! ## Option matching and profile paths (question-handler module) -/

/-- One `<option>` as `findMatchingOption` reads it. -/
structure MatchOption where
  value : String
  text : String
deriving DecidableEq, Repr

/-- Whether an alias group fires for the target: some synonym of the group
occurs in the lowercased target. -/
def aliasGroupFires (lowerTarget : String) (g : String × List String) : Bool :=
  g.2.any (fun m => strIncludes lowerTarget (lowerString m))

/-- The option an alias group selects: the first option whose text or
value contains the group key (used verbatim, as in the source), or whose
text contains one of the group's synonyms. -/
def aliasGroupPick (options : List MatchOption) (g : String × List String) :
    Option MatchOption :=
  options.find? (fun o =>
    strIncludes (lowerString o.text) g.1 ||
    strIncludes (lowerString o.value) g.1 ||
    g.2.any (fun m => strIncludes (lowerString o.text) (lowerString m)))

/-- The alias-table scan of `findMatchingOption`: the first group that
fires and picks an option wins. -/
def aliasScan (options : List MatchOption) (lowerTarget : String) :
    List (String × List String) → Option String
  | [] => none
  | g :: rest =>
    if aliasGroupFires lowerTarget g then
      match aliasGroupPick options g with
      | some o => some o.value
      | none => aliasScan options lowerTarget rest
    else aliasScan options lowerTarget rest

/-- Exact rule of `findMatchingOption`: case-insensitive equality of text
or value with the target. -/
def exactOptionPred (lowerTarget : String) (o : MatchOption) : Bool :=
  lowerString o.text = lowerTarget || lowerString o.value = lowerTarget

/-- Partial rule of `findMatchingOption`: bidirectional substring
containment between option text and target. -/
def partialOptionPred (lowerTarget : String) (o : MatchOption) : Bool :=
  strIncludes (lowerString o.text) lowerTarget ||
  strIncludes lowerTarget (lowerString o.text)

/-- `findMatchingOption` of the question-handler module, with the page's
option extraction abstracted to the option list: alias table (when given),
then exact match, then partial match, first rule to succeed wins. -/
def findMatchingOption (options : List MatchOption) (targetValue : String)
    (optionMatches : Option (List (String × List String))) : Option String :=
  let lowerTarget := lowerString targetValue
  let aliased := match optionMatches with
    | some groups => aliasScan options lowerTarget groups
    | none => none
  match aliased with
  | some v => some v
  | none =>
    match options.find? (exactOptionPred lowerTarget) with
    | some o => some o.value
    | none =>
      match options.find? (partialOptionPred lowerTarget) with
      | some o => some o.value
      | none => none

/-- A JavaScript-like value for profile records. -/
inductive JValue where
  | str (s : String)
  | boolean (b : Bool)
  | arr (xs : List JValue)
  | obj (fields : List (String × JValue))

/-- Property access `value[key]`: defined on objects, `undefined`
elsewhere. -/
def objLookup (v : JValue) (k : String) : Option JValue :=
  match v with
  | .obj fs => (fs.find? (fun p => p.1 = k)).map (fun p => p.2)
  | _ => none

/-- Decimal reading of a digit run. -/
def digitsToNat (cs : List Char) : Nat :=
  cs.foldl (fun n c => n * 10 + (c.toNat - 48)) 0

/-- Parses a path part of the shape `name[digits]`, modelling the source's
regex `(\w+)\[(\d+)\]` on single-bracket parts. -/
def parseIndexed (part : String) : Option (String × Nat) :=
  match splitCharsOn '[' [] part.data with
  | [nm, rest] =>
    match splitCharsOn ']' [] rest.data with
    | [digits, _tail] =>
      if nm ≠ "" && digits ≠ "" && digits.data.all Char.isDigit then
        some (nm, digitsToNat digits.data)
      else none
    | _ => none
  | _ => none

/-- One step of the dotted-path walk: an indexed part reads the named
property and, when it is an array, indexes into it; a plain part reads the
named property. -/
def stepPath (v : JValue) (part : String) : Option JValue :=
  match parseIndexed part with
  | some (nm, i) =>
    match objLookup v nm with
    | some (JValue.arr xs) => xs.get? i
    | some w => some w
    | none => none
  | none => objLookup v part

/-- The loop of `getProfileValue`: `undefined` propagates through all
remaining parts. -/
def goPath : Option JValue → List String → Option JValue
  | v, [] => v
  | none, _ :: _ => none
  | some v, p :: ps => goPath (stepPath v p) ps

/-- `getProfileValue` of the question-handler module: walk the dotted
path, then keep only string and boolean results. -/
def getProfileValue (root : JValue) (fieldPath : String) : Option JValue :=
  match goPath (some root) (splitOnDot fieldPath) with
  | some (JValue.str s) => some (JValue.str s)
  | some (JValue.boolean b) => some (JValue.boolean b)
  | _ => none

/-! ## Page-state classifier (application-navigator.ts)

A document is modelled by, for each marker selector of the two curated
lists, the visibility flags of the elements matching that selector in DOM
order.  `page.$$` walks all of them; `page.$` sees only the first. -/

/-- The document as the navigator queries it. -/
structure NavDoc where
  listingMatches : List (List Bool)
  appMatches : List (List Bool)
  url : String
  hasNameField : Bool
  hasEmailField : Bool
deriving DecidableEq, Repr

/-- Total count of visible elements across the per-selector match lists
(the `page.$$` + `isVisible` summation). -/
def countVisible (ms : List (List Bool)) : Nat :=
  (ms.map (fun l => (l.filter (fun b => b)).length)).sum

/-- `isJobListingPage`: listing when there are more than 2 visible search
markers and fewer than 3 visible application markers, or the URL looks
like a job-details page. -/
def isJobListingPage (d : NavDoc) : Bool :=
  if countVisible d.listingMatches > 2 && countVisible d.appMatches < 3 then true
  else if strIncludes d.url "/job/" && !strIncludes d.url "/apply" then true
  else false

/-- Count of application marker selectors whose first matching element is
visible (the `page.$` + `isVisible` loop of `isApplicationFormPage`). -/
def firstMatchVisibleCount (ms : List (List Bool)) : Nat :=
  (ms.filter (fun l => l.head? = some true)).length

/-- `isApplicationFormPage`: at least two marker selectors with a visible
first match, else the name-and-email fallback. -/
def isApplicationFormPage (d : NavDoc) : Bool :=
  if firstMatchVisibleCount d.appMatches ≥ 2 then true
  else d.hasNameField && d.hasEmailField

/-! ## Agent loop (overlay-ui.ts)

`runFormAgent` is embedded with the decision oracle abstracted to a
function from the step number to the parsed `AgentAction` (the source
derives it from the observation, the prompt and the transport), and action
execution abstracted to a boolean-valued function on actions (a thrown
execution error behaves like a `false` return for the state the loop
keeps).  The loop counter is fuel: the source's `while (steps < maxSteps)`
becomes structural recursion on the remaining steps. -/

/-- One parsed oracle decision. -/
structure AgentAction where
  type : String
  target : Option String
  value : Option String
  reason : String
deriving DecidableEq, Repr

/-- Termination value of the agent loop. -/
structure AgentResult where
  success : Bool
  steps : Nat
  reason : String
deriving DecidableEq, Repr

/-- The `(type,target)` key used for loop detection. -/
def actionKey (a : AgentAction) : String :=
  a.type ++ ":" ++ a.target.getD ""

/-- Push onto the recent-action window, keeping the last five entries. -/
def slideWindow (recent : List String) (key : String) : List String :=
  let pushed := recent ++ [key]
  if pushed.length > 5 then pushed.drop 1 else pushed

/-- The loop body of `runFormAgent`: `steps` and `cf` (consecutive
failures) and the recent-action window are the mutable state; `fuel` is
the number of remaining iterations allowed by `maxSteps`. -/
def runAgentGo (oracle : Nat → AgentAction) (exec : AgentAction → Bool) :
    Nat → Nat → List String → Nat → AgentResult
  | steps, _, _, 0 => ⟨false, steps, "Max steps reached"⟩
  | steps, cf, recent, fuel + 1 =>
    let stepsNow := steps + 1
    let action := oracle stepsNow
    let key := actionKey action
    let window := slideWindow recent key
    if 3 ≤ (window.filter (fun a => a = key)).length then
      ⟨false, stepsNow, "Action loop detected: " ++ action.type ++ " - " ++ action.target.getD ""⟩
    else if action.type = "done" then ⟨true, stepsNow, action.reason⟩
    else if action.type = "need_help" then ⟨false, stepsNow, action.reason⟩
    else if exec action then runAgentGo oracle exec stepsNow 0 window fuel
    else
      let cf1 := cf + 1
      let cf2 := if action.type = "click_button" && cf1 < 5 then cf1 - 1 else cf1
      if 5 ≤ cf2 then
        ⟨false, stepsNow,
          "Too many failed actions. Last action: " ++ action.type ++ " - " ++ action.target.getD ""⟩
      else runAgentGo oracle exec stepsNow cf2 window fuel

/-- `runFormAgent` of overlay-ui.ts. -/
def runFormAgent (oracle : Nat → AgentAction) (exec : AgentAction → Bool)
    (maxSteps : Nat) : AgentResult :=
  runAgentGo oracle exec 0 0 [] maxSteps

/-! ## Button observation and click_button execution (overlay-ui.ts)

Button elements are modelled flat, in DOM order, with the attributes both
`observePage` and `executeAction` consult.  The two Playwright query
strategies of `click_button` (`:has-text` then a manual substring scan)
coincide on this flat model: the first element whose text contains the
target case-insensitively. -/

/-- One button-like element on the live page. -/
structure BtnElem where
  text : String
  ariaLabel : String
  hasDisabledAttr : Bool
  ariaDisabledTrue : Bool
  disabledProp : Bool
  classDisabled : Bool
  pointerEventsNone : Bool
  opacityZero : Bool
  visible : Bool
  inOverlay : Bool
deriving DecidableEq, Repr

/-- The disabled check both call sites share. -/
def isDisabledBtn (b : BtnElem) : Bool :=
  b.hasDisabledAttr || b.ariaDisabledTrue || b.disabledProp || b.classDisabled

/-- `observePage`'s clickability check. -/
def isClickableBtn (b : BtnElem) : Bool :=
  !b.pointerEventsNone && !b.opacityZero && !isDisabledBtn b

/-- `observePage`'s button-kind classification from lowercased text and
aria-label. -/
def buttonTypeOf (b : BtnElem) : String :=
  let t := lowerString b.text
  let al := lowerString b.ariaLabel
  if strIncludes t "add" || strIncludes al "add" then "add"
  else if strIncludes t "next" || strIncludes t "continue" ||
          strIncludes t "save and continue" then "next"
  else if strIncludes t "submit" || strIncludes t "apply" then "submit"
  else "other"

/-- The buttons `observePage` offers to the oracle: outside the overlay,
visible, clickable, and either keyword-typed or short-texted. -/
def observedButtons (page : List BtnElem) : List BtnElem :=
  page.filter (fun b =>
    !b.inOverlay && b.visible && isClickableBtn b &&
    (buttonTypeOf b ≠ "other" || b.text.length < 30))

/-- First button (by DOM index) whose text contains the target
case-insensitively. -/
def findBtnAux (target : String) : List BtnElem → Nat → Option (Nat × BtnElem)
  | [], _ => none
  | b :: rest, i =>
    if strIncludesCI b.text target then some (i, b)
    else findBtnAux target rest (i + 1)

/-- Playwright actionability for `click({ force: false })`: the element
must have a non-empty bounding box (visible) and receive pointer events.
A click on an element failing these checks throws; `executeAction`
catches it and returns `false` with no click performed. -/
def clickActionable (b : BtnElem) : Bool :=
  b.visible && !b.pointerEventsNone

/-- The `click_button` branch of `executeAction`: empty targets fail; the
first text-matching button is checked for the disabled attributes and
returns `false` without a click attempt when disabled; otherwise it is
clicked with `force: false`, whose actionability check fails (throws,
caught, `false`, no click) on a hidden or event-transparent element.  The
result is the returned boolean and the index of the clicked button, if
any. -/
def executeClickButton (page : List BtnElem) (target : String) : Bool × Option Nat :=
  if target = "" then (false, none)
  else
    match findBtnAux target page 0 with
    | none => (false, none)
    | some (i, b) =>
      if isDisabledBtn b then (false, none)
      else if !clickActionable b then (false, none)
      else (true, some i)

/-! ## Theorems: tracker idempotency (C1, C10) and fill records (C9) -/

/-- Recording a fill leaves a success record for the selector. -/
theorem hasSuccessRecord_recordFill (t : FormTracker) (s l v m : String) :
    (t.recordFill s l v m).hasSuccessRecord s = true := by
  unfold FormTracker.recordFill FormTracker.hasSuccessRecord
  by_cases h : t.filledFields.any (fun p => p.1 = s) = true
  · simp [h]
  · simp [h]

/-- Marking a selector attempted makes `isFieldFilled` true for it. -/
theorem isFieldFilled_markAttempted (t : FormTracker) (s : String) :
    (t.markAttempted s).isFieldFilled s = true := by
  unfold FormTracker.markAttempted FormTracker.isFieldFilled
  by_cases h : s ∈ t.attemptedSelectors
  · simp [h]
  · simp [h]

/-- `recordFailure` does not change the filled or attempted ledgers. -/
theorem isFieldFilled_recordFailure (t : FormTracker) (s l r m s2 : String) :
    (t.recordFailure s l r m).isFieldFilled s2 = t.isFieldFilled s2 := by
  rfl

/-- `recordFill` preserves `isFieldFilled` facts. -/
theorem isFieldFilled_recordFill_of (t : FormTracker) (s l v m s2 : String)
    (h : t.isFieldFilled s2 = true) : (t.recordFill s l v m).isFieldFilled s2 = true := by
  unfold FormTracker.recordFill
  by_cases hc : t.filledFields.any (fun p => p.1 = s) = true
  · simp [hc, h]
  · unfold FormTracker.isFieldFilled at h ⊢
    rw [Bool.or_eq_true] at h
    rcases h with h1 | h1
    · simp [hc, List.any_append, h1]
    · simp at h1
      simp [hc, h1]

/-- C1: for every selector with a successful FillRecord in the current
tracked session, a later fillTextField or fillSelectField call on that
selector returns false immediately, leaves the tracker unchanged and
performs no page interaction; and any successful fill leaves a success
record, so a selector is successfully filled at most once per session. -/
theorem filled_selector_fill_is_noop (page : PageModel) (t : FormTracker)
    (sel v l m : String) (h : t.hasSuccessRecord sel = true) :
    fillTextField page t sel v l m = ⟨false, t, []⟩ ∧
    fillSelectField page t sel v l m = ⟨false, t, []⟩ ∧
    (∀ (t0 : FormTracker) (r : FillResult),
      fillTextField page t0 sel v l m = r → r.ok = true →
      r.tracker.hasSuccessRecord sel = true) ∧
    (∀ (t0 : FormTracker) (r : FillResult),
      fillSelectField page t0 sel v l m = r → r.ok = true →
      r.tracker.hasSuccessRecord sel = true) := by
  have hf : t.isFieldFilled sel = true := by
    unfold FormTracker.isFieldFilled
    unfold FormTracker.hasSuccessRecord at h
    simp [h]
  refine ⟨?_, ?_, ?_, ?_⟩
  · unfold fillTextField; simp [hf]
  · unfold fillSelectField; simp [hf]
  · intro t0 r hr hok
    unfold fillTextField at hr
    split at hr
    · subst hr; simp at hok
    · split at hr
      · subst hr; simp at hok
      · split at hr
        · subst hr; simp at hok
        · split at hr
          · subst hr; simp at hok
          · subst hr; exact hasSuccessRecord_recordFill _ _ _ _ _
  · intro t0 r hr hok
    unfold fillSelectField at hr
    split at hr
    · subst hr; simp at hok
    · split at hr
      · subst hr; simp at hok
      · split at hr
        · subst hr; exact hasSuccessRecord_recordFill _ _ _ _ _
        · split at hr
          · subst hr; exact hasSuccessRecord_recordFill _ _ _ _ _
          · subst hr; simp at hok

/-- Witness for C1 at a concrete tracker holding one success record. -/
theorem filled_selector_fill_is_noop_witness :
    FormTracker.hasSuccessRecord
      ⟨[("#email", ⟨"#email", "Email", "x", true, "M"⟩)], [], []⟩ "#email" = true ∧
    (fillTextField [] ⟨[("#email", ⟨"#email", "Email", "x", true, "M"⟩)], [], []⟩
        "#email" "a" "Email" "M" =
      ⟨false, ⟨[("#email", ⟨"#email", "Email", "x", true, "M"⟩)], [], []⟩, []⟩ ∧
     fillSelectField [] ⟨[("#email", ⟨"#email", "Email", "x", true, "M"⟩)], [], []⟩
        "#email" "a" "Email" "M" =
      ⟨false, ⟨[("#email", ⟨"#email", "Email", "x", true, "M"⟩)], [], []⟩, []⟩ ∧
     (∀ (t0 : FormTracker) (r : FillResult),
       fillTextField [] t0 "#email" "a" "Email" "M" = r → r.ok = true →
       r.tracker.hasSuccessRecord "#email" = true) ∧
     (∀ (t0 : FormTracker) (r : FillResult),
       fillSelectField [] t0 "#email" "a" "Email" "M" = r → r.ok = true →
       r.tracker.hasSuccessRecord "#email" = true)) :=
  ⟨by decide,
   filled_selector_fill_is_noop []
     ⟨[("#email", ⟨"#email", "Email", "x", true, "M"⟩)], [], []⟩
     "#email" "a" "Email" "M" (by decide)⟩

/-- C10: an attempted selector (even after a failed attempt) suppresses
every later tracked fill on it: `isFieldFilled` covers the attempted set,
any fill call leaves the selector reported as filled, an attempted
selector makes fills no-ops, and only `reset` clears the suppression. -/
theorem attempted_selector_suppresses_fill (page : PageModel) (t : FormTracker)
    (sel v l m : String) :
    (sel ∈ t.attemptedSelectors →
      fillTextField page t sel v l m = ⟨false, t, []⟩ ∧
      fillSelectField page t sel v l m = ⟨false, t, []⟩) ∧
    (fillTextField page t sel v l m).tracker.isFieldFilled sel = true ∧
    (fillSelectField page t sel v l m).tracker.isFieldFilled sel = true ∧
    (t.reset).isFieldFilled sel = false := by
  refine ⟨?_, ?_, ?_, rfl⟩
  · intro hmem
    have hf : t.isFieldFilled sel = true := by
      unfold FormTracker.isFieldFilled; simp [hmem]
    constructor
    · unfold fillTextField; simp [hf]
    · unfold fillSelectField; simp [hf]
  · by_cases hf : t.isFieldFilled sel = true
    · unfold fillTextField; simp [hf]
    · rw [Bool.not_eq_true] at hf
      unfold fillTextField
      simp only [hf]
      rcases hp : pageFind page sel with _ | el <;> simp only [hp]
      · simp [isFieldFilled_recordFailure, isFieldFilled_markAttempted]
      · by_cases hv : el.visible = true
        · by_cases hval : el.value = v
          · simp [hv, hval, isFieldFilled_markAttempted]
          · simp [hv, hval,
              isFieldFilled_recordFill_of _ _ _ _ _ _ (isFieldFilled_markAttempted t sel)]
        · rw [Bool.not_eq_true] at hv
          simp [hv, isFieldFilled_recordFailure, isFieldFilled_markAttempted]
  · by_cases hf : t.isFieldFilled sel = true
    · unfold fillSelectField; simp [hf]
    · rw [Bool.not_eq_true] at hf
      unfold fillSelectField
      simp only [hf]
      rcases hp : pageFind page sel with _ | el <;> simp only [hp]
      · simp [isFieldFilled_recordFailure, isFieldFilled_markAttempted]
      · by_cases h1 : el.options.any (fun o => o.2 = v) = true
        · simp [h1,
            isFieldFilled_recordFill_of _ _ _ _ _ _ (isFieldFilled_markAttempted t sel)]
        · by_cases h2 : el.options.any (fun o => o.1 = v) = true
          · simp [h1, h2,
              isFieldFilled_recordFill_of _ _ _ _ _ _ (isFieldFilled_markAttempted t sel)]
          · simp [h1, h2, isFieldFilled_recordFailure, isFieldFilled_markAttempted]

/-- Witness for C10 at a tracker that has only attempted (not filled) a
selector. -/
theorem attempted_selector_suppresses_fill_witness :
    fillTextField [] ⟨[], [], ["#a"]⟩ "#a" "v" "l" "m" = ⟨false, ⟨[], [], ["#a"]⟩, []⟩ ∧
    fillSelectField [] ⟨[], [], ["#a"]⟩ "#a" "v" "l" "m" = ⟨false, ⟨[], [], ["#a"]⟩, []⟩ ∧
    (FormTracker.reset ⟨[], [], ["#a"]⟩).isFieldFilled "#a" = false := by
  have h := attempted_selector_suppresses_fill [] ⟨[], [], ["#a"]⟩ "#a" "v" "l" "m"
  exact ⟨(h.1 (by decide)).1, (h.1 (by decide)).2, h.2.2.2⟩

/-- C9 counterexample: a fill attempt on a field that already holds the
target value writes no FillRecord at all — the tracker ends with empty
filled and failed ledgers although the attempt took place (the selector
was marked attempted), refuting "every fill attempt writes one FillRecord
(success or failure)" and the recording of a value-unchanged condition. -/
theorem fill_attempt_without_record :
    fillTextField [("#a", ⟨true, "x", false, []⟩)] FormTracker.empty "#a" "x" "A" "M" =
      ⟨false, ⟨[], [], ["#a"]⟩, []⟩ ∧
    (fillTextField [("#a", ⟨true, "x", false, []⟩)] FormTracker.empty
        "#a" "x" "A" "M").tracker.filledFields = [] ∧
    (fillTextField [("#a", ⟨true, "x", false, []⟩)] FormTracker.empty
        "#a" "x" "A" "M").tracker.failedFields = [] := by
  refine ⟨?_, ?_, ?_⟩ <;> rfl

/-- C9 amended: the failure conditions element-not-found and
element-not-visible are recorded in the tracker (not thrown) with
human-readable reasons; an attempt on a field that already holds the
target value returns false without writing any record; and no single
field outcome stops the overall fill pass, which always continues with
the remaining fields. -/
theorem fill_failures_recorded_pass_continues (page : PageModel) (t : FormTracker)
    (sel v l m : String) :
    (t.isFieldFilled sel = false → pageFind page sel = none →
      fillTextField page t sel v l m =
        ⟨false, (t.markAttempted sel).recordFailure sel l "Element not found" m, []⟩) ∧
    (∀ el : PageEl, t.isFieldFilled sel = false → pageFind page sel = some el →
      el.visible = false →
      fillTextField page t sel v l m =
        ⟨false, (t.markAttempted sel).recordFailure sel l "Element not visible" m, []⟩) ∧
    (∀ el : PageEl, t.isFieldFilled sel = false → pageFind page sel = some el →
      el.visible = true → el.value = v →
      fillTextField page t sel v l m = ⟨false, t.markAttempted sel, []⟩) ∧
    (∀ fs1 fs2 : List (String × Option String × List String),
      autofillBasicPass page t (fs1 ++ fs2) =
        autofillBasicPass page (autofillBasicPass page t fs1) fs2) := by
  refine ⟨?_, ?_, ?_, ?_⟩
  · intro hf hp
    unfold fillTextField; simp [hf, hp]
  · intro el hf hp hv
    unfold fillTextField; simp [hf, hp, hv]
  · intro el hf hp hv hval
    unfold fillTextField; simp [hf, hp, hv, hval]
  · intro fs1 fs2
    induction fs1 generalizing t with
    | nil => rfl
    | cons x rest ih =>
      rcases x with ⟨label, vOpt, sels⟩
      cases vOpt with
      | none => simpa [autofillBasicPass] using ih t
      | some w => simpa [autofillBasicPass] using ih (tryCandidates page t w label sels).1

/-- Witness for C9's amended statement: a missing element and an invisible
element leave recorded reasons. -/
theorem fill_failures_recorded_pass_continues_witness :
    fillTextField [("#b", ⟨false, "", false, []⟩)] FormTracker.empty "#a" "v" "A" "M" =
      ⟨false, ⟨[], [("#a", ⟨"A", "Element not found"⟩)], ["#a"]⟩, []⟩ ∧
    fillTextField [("#b", ⟨false, "", false, []⟩)] FormTracker.empty "#b" "v" "B" "M" =
      ⟨false, ⟨[], [("#b", ⟨"B", "Element not visible"⟩)], ["#b"]⟩, []⟩ := by
  have h := fill_failures_recorded_pass_continues
    [("#b", ⟨false, "", false, []⟩)] FormTracker.empty "#a" "v" "A" "M"
  have h2 := fill_failures_recorded_pass_continues
    [("#b", ⟨false, "", false, []⟩)] FormTracker.empty "#b" "v" "B" "M"
  exact ⟨h.1 (by decide) (by decide), h2.2.1 ⟨false, "", false, []⟩ (by decide) rfl rfl⟩

/-! ## Theorems: extraction dedup (C3) and label resolution (C4) -/

/-- Everything the dedup keeps came from the input. -/
theorem dedupGo_subset (fs : List ExtractedField) :
    ∀ (seen : List String) (g : ExtractedField),
      g ∈ deduplicateFieldsGo seen fs → g ∈ fs := by
  induction fs with
  | nil => intro seen g h; simp [deduplicateFieldsGo] at h
  | cons f rest ih =>
    intro seen g h
    unfold deduplicateFieldsGo at h
    split at h
    · rcases List.mem_cons.mp h with h1 | h1
      · exact h1 ▸ List.mem_cons_self f rest
      · exact List.mem_cons_of_mem f (ih _ g h1)
    · exact List.mem_cons_of_mem f (ih _ g h)

/-- The dedup output has pairwise-distinct keys, none of them in `seen`. -/
theorem dedupGo_keys (fs : List ExtractedField) :
    ∀ seen : List String,
      List.Pairwise (fun a b => fieldKey a ≠ fieldKey b) (deduplicateFieldsGo seen fs) ∧
      (∀ g ∈ deduplicateFieldsGo seen fs, fieldKey g ∉ seen) := by
  induction fs with
  | nil => intro seen; simp [deduplicateFieldsGo]
  | cons f rest ih =>
    intro seen
    unfold deduplicateFieldsGo
    split
    · rename_i hcond
      simp only [Bool.and_eq_true, decide_eq_true_eq, Bool.not_eq_true'] at hcond
      have hnotmem : fieldKey f ∉ seen := by simpa using hcond.2
      constructor
      · refine List.pairwise_cons.mpr ⟨?_, (ih (seen ++ [fieldKey f])).1⟩
        intro g hg
        have hgs := (ih (seen ++ [fieldKey f])).2 g hg
        rw [List.mem_append] at hgs
        push_neg at hgs
        intro hEq
        exact hgs.2 (by rw [← hEq]; exact List.mem_singleton_self _)
      · intro g hg
        rcases List.mem_cons.mp hg with h1 | h1
        · subst h1; exact hnotmem
        · have hgs := (ih (seen ++ [fieldKey f])).2 g h1
          rw [List.mem_append] at hgs
          push_neg at hgs
          exact hgs.1
    · exact ih seen

/-- The first input field bearing a given non-empty key survives the
dedup. -/
theorem dedupGo_first (fs : List ExtractedField) :
    ∀ (seen : List String) (k : String) (g : ExtractedField),
      fs.find? (fun f => fieldKey f = k) = some g → k ≠ "" → k ∉ seen →
      g ∈ deduplicateFieldsGo seen fs := by
  induction fs with
  | nil => intro seen k g h; simp at h
  | cons f rest ih =>
    intro seen k g hfind hk hseen
    by_cases hf : fieldKey f = k
    · rw [List.find?_cons_of_pos _ (by simp [hf])] at hfind
      have hg : f = g := by injection hfind
      subst hg
      unfold deduplicateFieldsGo
      rw [hf]
      rw [if_pos (by simp [hk, hseen])]
      exact List.mem_cons_self _ _
    · rw [List.find?_cons_of_neg _ (by simp [hf])] at hfind
      unfold deduplicateFieldsGo
      by_cases hkept : (decide (fieldKey f ≠ "") && !seen.contains (fieldKey f)) = true
      · rw [if_pos hkept]
        refine List.mem_cons_of_mem f (ih (seen ++ [fieldKey f]) k g hfind hk ?_)
        rw [List.mem_append]
        push_neg
        refine ⟨hseen, ?_⟩
        simp only [List.mem_singleton]
        exact fun h => hf h.symm
      · rw [if_neg hkept]
        exact ih seen k g hfind hk hseen

/-- C3 counterexample: the dedup keeps the first-discovered record even
when a later record with the same selector is richer (carries resolved
options), refuting the claimed preference for the richer record. -/
theorem dedup_drops_richer_record :
    deduplicateFields
        [⟨"#x", "A", none⟩, ⟨"#x", "A", some [("v", "t")]⟩] =
      [⟨"#x", "A", none⟩] ∧
    (⟨"#x", "A", some [("v", "t")]⟩ : ExtractedField).selector =
      (⟨"#x", "A", none⟩ : ExtractedField).selector ∧
    (⟨"#x", "A", none⟩ : ExtractedField).options = none := by
  refine ⟨?_, rfl, rfl⟩
  rfl

/-- C3 amended: extraction deduplicates by selector — when every input
field carries a non-empty selector, no two output records share a
selector, every output record is an input record, and the record kept for
a selector is the first-discovered one (richness is not consulted). -/
theorem dedup_by_selector_first_wins (fields : List ExtractedField)
    (hsel : ∀ f ∈ fields, f.selector ≠ "") :
    List.Pairwise (fun a b => a.selector ≠ b.selector) (deduplicateFields fields) ∧
    (∀ g ∈ deduplicateFields fields, g ∈ fields) ∧
    (∀ g : ExtractedField,
      fields.find? (fun f => fieldKey f = fieldKey g) = some g →
      g ∈ deduplicateFields fields) := by
  refine ⟨?_, ?_, ?_⟩
  · have hp := (dedupGo_keys fields []).1
    refine List.Pairwise.imp_of_mem ?_ hp
    intro a b ha hb hne
    have ha2 := hsel a (dedupGo_subset fields [] a ha)
    have hb2 := hsel b (dedupGo_subset fields [] b hb)
    unfold fieldKey at hne
    rw [if_neg ha2, if_neg hb2] at hne
    exact hne
  · exact dedupGo_subset fields []
  · intro g hfind
    have hmem : g ∈ fields := List.mem_of_find?_eq_some hfind
    have hkey : fieldKey g ≠ "" := by
      unfold fieldKey
      rw [if_neg (hsel g hmem)]
      exact hsel g hmem
    exact dedupGo_first fields [] (fieldKey g) g hfind hkey (by simp)

/-- Witness for C3's amended statement on a three-field list with one
duplicated selector. -/
theorem dedup_by_selector_first_wins_witness :
    List.Pairwise (fun a b => a.selector ≠ b.selector)
      (deduplicateFields
        [⟨"#x", "A", none⟩, ⟨"#y", "B", none⟩, ⟨"#x", "C", some []⟩]) ∧
    (⟨"#x", "A", none⟩ : ExtractedField) ∈
      deduplicateFields
        [⟨"#x", "A", none⟩, ⟨"#y", "B", none⟩, ⟨"#x", "C", some []⟩] := by
  have h := dedup_by_selector_first_wins
    [⟨"#x", "A", none⟩, ⟨"#y", "B", none⟩, ⟨"#x", "C", some []⟩] (by decide)
  exact ⟨h.1, h.2.2 ⟨"#x", "A", none⟩ (by decide)⟩

/-- C4 counterexample: with an empty ARIA label, a non-empty placeholder
and an associated `label[for]` element, the code resolves the placeholder
while the claimed priority (explicit label association before placeholder)
would resolve the label text. -/
theorem label_order_counterexample :
    resolveLabel ⟨"", "P", "x", "L", "", ""⟩ = "P" ∧
    specLabelResolve ⟨"", "P", "x", "L", "", ""⟩ 0 = "L" ∧
    ("P" : String) ≠ "L" := by
  refine ⟨rfl, rfl, by decide⟩

/-- C4 amended: extraction resolves the label by the priority ARIA
attribute, then placeholder, then explicit label association (only for
elements with an id), then the nearest ancestor container's labelled
child, first non-empty source winning; raw name/id and positional
fallbacks are not part of label resolution, which may yield the empty
string. -/
theorem resolveLabel_priority (el : TextInputEl) :
    resolveLabel el =
      if el.ariaLabel ≠ "" then squish el.ariaLabel
      else if el.placeholder ≠ "" then squish el.placeholder
      else if el.id ≠ "" ∧ el.labelForText ≠ "" then squish el.labelForText
      else squish el.containerLabelText := by
  unfold resolveLabel
  by_cases ha : el.ariaLabel = ""
  · by_cases hp : el.placeholder = ""
    · by_cases hid : el.id = ""
      · simp [ha, hp, hid]
      · by_cases hl : el.labelForText = ""
        · simp [ha, hp, hid, hl]
        · simp [ha, hp, hid, hl]
    · simp [ha, hp]
  · simp [ha]

/-! ## Theorems: option matching (C5) -/

/-- C5 counterexample: with an alias table whose group fires for the
target, the matcher returns a substring-overlapping option even though an
exact case-insensitive text match is present — the alias rule outranks
exact matching, so an exact text match is not always returned. -/
theorem alias_beats_exact_match :
    findMatchingOption [⟨"my", "maybe yes?"⟩, ⟨"y1", "Yes"⟩] "Yes"
        (some [("y", ["yes"])]) = some "my" ∧
    exactOptionPred (lowerString "Yes") ⟨"y1", "Yes"⟩ = true ∧
    (some "my" : Option String) ≠ some "y1" := by
  refine ⟨rfl, by decide, by decide⟩

/-- C5 amended: option matching tries the alias table, then
case-insensitive exact text/value equality, then bidirectional substring
containment, first successful rule winning; whenever the alias rule
selects nothing (in particular when no alias table is supplied), an
options list containing an exact case-insensitive match yields the first
such option regardless of other substring-overlapping options. -/
theorem exact_match_wins_without_alias (options : List MatchOption) (target : String)
    (om : Option (List (String × List String)))
    (halias : om.elim True (fun gs => aliasScan options (lowerString target) gs = none))
    (o : MatchOption)
    (hfind : options.find? (exactOptionPred (lowerString target)) = some o) :
    findMatchingOption options target om = some o.value := by
  unfold findMatchingOption
  cases om with
  | none => simp [hfind]
  | some gs =>
    simp only [Option.elim] at halias
    simp [halias, hfind]

/-- Witness for C5's amended statement: an exact case-insensitive text
match outranks a substring-overlapping option when no alias table is
given. -/
theorem exact_match_wins_without_alias_witness :
    findMatchingOption [⟨"1", "yes indeed"⟩, ⟨"2", "Yes"⟩] "yes" none = some "2" := by
  have h := exact_match_wins_without_alias [⟨"1", "yes indeed"⟩, ⟨"2", "Yes"⟩] "yes" none
    trivial ⟨"2", "Yes"⟩ (by decide)
  exact h

/-! ## Theorems: page-state classification (C7) and profile paths (C8) -/

/-- C7: more than 2 visible listing markers with fewer than 3 visible
application markers classifies as listing; at least 2 application marker
selectors with a visible first match classifies as application-form; a
document with 3 visible search inputs and no application markers is a
listing and not an application form, and the same document with 4 visible
application markers is an application form and no longer a listing. -/
theorem classifier_thresholds (d : NavDoc)
    (h1 : countVisible d.listingMatches > 2)
    (h2 : countVisible d.appMatches < 3) :
    isJobListingPage d = true ∧
    (∀ d2 : NavDoc, 2 ≤ firstMatchVisibleCount d2.appMatches →
      isApplicationFormPage d2 = true) ∧
    isJobListingPage
      ⟨[[true], [true], [true]], [], "https://careers.example.com/search", false, false⟩
      = true ∧
    isApplicationFormPage
      ⟨[[true], [true], [true]], [], "https://careers.example.com/search", false, false⟩
      = false ∧
    isApplicationFormPage
      ⟨[[true], [true], [true]], [[true], [true], [true], [true]],
        "https://careers.example.com/search", false, false⟩ = true ∧
    isJobListingPage
      ⟨[[true], [true], [true]], [[true], [true], [true], [true]],
        "https://careers.example.com/search", false, false⟩ = false := by
  refine ⟨?_, ?_, by decide, by decide, by decide, by decide⟩
  · unfold isJobListingPage
    simp [h1, h2]
  · intro d2 h
    unfold isApplicationFormPage
    simp [h]

/-- Witness for C7 at a concrete listing-shaped document. -/
theorem classifier_thresholds_witness :
    isJobListingPage
      ⟨[[true, true], [true]], [[false]], "https://careers.example.com/jobs", false, false⟩
      = true ∧
    isApplicationFormPage
      ⟨[], [[true], [true]], "https://careers.example.com/apply", false, false⟩ = true := by
  have h := classifier_thresholds
    ⟨[[true, true], [true]], [[false]], "https://careers.example.com/jobs", false, false⟩
    (by decide) (by decide)
  exact ⟨h.1, h.2.1 ⟨[], [[true], [true]], "https://careers.example.com/apply", false, false⟩
    (by decide)⟩

/-- C8: dotted-path resolution reads `education[0].school` as the first
education entry's school; `education[5].school` on fewer than 6 entries is
`undefined`; and once any segment is missing, the rest of the walk stays
`undefined`. -/
theorem profile_path_resolution (p e : List (String × JValue))
    (entries : List JValue) (school : String)
    (hEdu : objLookup (JValue.obj p) "education" =
      some (JValue.arr (JValue.obj e :: entries)))
    (hSchool : objLookup (JValue.obj e) "school" = some (JValue.str school)) :
    getProfileValue (JValue.obj p) "education[0].school" = some (JValue.str school) ∧
    (∀ es : List JValue,
      objLookup (JValue.obj p) "education" = some (JValue.arr es) →
      es.length < 6 →
      getProfileValue (JValue.obj p) "education[5].school" = none) ∧
    (∀ parts : List String, goPath none parts = none) := by
  refine ⟨?_, ?_, ?_⟩
  · have hsplit : splitOnDot "education[0].school" = ["education[0]", "school"] := by decide
    have hparse : parseIndexed "education[0]" = some ("education", 0) := by decide
    have hparse2 : parseIndexed "school" = none := by decide
    unfold getProfileValue
    rw [hsplit]
    simp [goPath, stepPath, hparse, hparse2, hEdu, hSchool]
  · intro es hes hlen
    have hsplit : splitOnDot "education[5].school" = ["education[5]", "school"] := by decide
    have hparse : parseIndexed "education[5]" = some ("education", 5) := by decide
    have hget : es[5]? = none := List.getElem?_eq_none (by omega)
    unfold getProfileValue
    rw [hsplit]
    simp [goPath, stepPath, hparse, hes, hget]
  · intro parts
    cases parts <;> rfl

/-- Witness for C8 at a concrete two-entry profile. -/
theorem profile_path_resolution_witness :
    getProfileValue
      (JValue.obj [("personal", JValue.obj []),
        ("education", JValue.arr [JValue.obj [("school", JValue.str "MIT")]])])
      "education[0].school" = some (JValue.str "MIT") ∧
    getProfileValue
      (JValue.obj [("personal", JValue.obj []),
        ("education", JValue.arr [JValue.obj [("school", JValue.str "MIT")]])])
      "education[5].school" = none := by
  have h := profile_path_resolution
    [("personal", JValue.obj []),
      ("education", JValue.arr [JValue.obj [("school", JValue.str "MIT")]])]
    [("school", JValue.str "MIT")] [] "MIT" rfl rfl
  exact ⟨h.1, h.2.1 [JValue.obj [("school", JValue.str "MIT")]] rfl (by decide)⟩

/-! ## Theorems: agent loop guard (C2) and click_button execution (C6) -/

/-- An oracle that always returns the identical click_button action. -/
def constClickOracle : Nat → AgentAction :=
  fun _ => ⟨"click_button", some "Next", none, "advance"⟩

/-- The loop guard fires as soon as the just-recorded key reaches three
occurrences in the five-entry window. -/
theorem runAgentGo_guard_fires (oracle : Nat → AgentAction) (exec : AgentAction → Bool)
    (steps cf : Nat) (recent : List String) (fuel : Nat)
    (h : 3 ≤ ((slideWindow recent (actionKey (oracle (steps + 1)))).filter
          (fun a => a = actionKey (oracle (steps + 1)))).length) :
    runAgentGo oracle exec steps cf recent (fuel + 1) =
      ⟨false, steps + 1,
       "Action loop detected: " ++ (oracle (steps + 1)).type ++ " - " ++
         (oracle (steps + 1)).target.getD ""⟩ := by
  simp only [runAgentGo]
  rw [if_pos h]

/-- One non-terminating step of the constant click_button run. -/
theorem runAgentGo_const_step (exec : AgentAction → Bool) (steps : Nat)
    (recent : List String) (fuel : Nat)
    (h : ((slideWindow recent "click_button:Next").filter
          (fun a => a = "click_button:Next")).length < 3) :
    runAgentGo constClickOracle exec steps 0 recent (fuel + 1) =
      runAgentGo constClickOracle exec (steps + 1) 0
        (slideWindow recent "click_button:Next") fuel := by
  simp only [runAgentGo, constClickOracle]
  simp only [show actionKey ⟨"click_button", some "Next", none, "advance"⟩ =
    "click_button:Next" from rfl]
  rw [if_neg (Nat.not_le.mpr h)]
  cases hexec : exec ⟨"click_button", some "Next", none, "advance"⟩ <;> simp [hexec]

/-- C2: the loop keeps a five-entry sliding window of `(type,target)`
action keys and terminates with success `false` and an action-loop reason
as soon as the key just recorded occurs at least three times in it; for an
oracle that always returns the identical click_button action, the run
terminates through this guard at step 3, within 5 steps. -/
theorem agent_loop_guard_terminates (exec : AgentAction → Bool) (maxSteps : Nat)
    (hmax : 3 ≤ maxSteps) :
    (∀ (oracle : Nat → AgentAction) (exec2 : AgentAction → Bool)
        (steps cf : Nat) (recent : List String) (fuel : Nat),
      3 ≤ ((slideWindow recent (actionKey (oracle (steps + 1)))).filter
            (fun a => a = actionKey (oracle (steps + 1)))).length →
      runAgentGo oracle exec2 steps cf recent (fuel + 1) =
        ⟨false, steps + 1,
         "Action loop detected: " ++ (oracle (steps + 1)).type ++ " - " ++
           (oracle (steps + 1)).target.getD ""⟩) ∧
    runFormAgent constClickOracle exec maxSteps =
      ⟨false, 3, "Action loop detected: click_button - Next"⟩ := by
  constructor
  · exact runAgentGo_guard_fires
  · obtain ⟨k, hk⟩ := Nat.exists_eq_add_of_le hmax
    subst hk
    rw [Nat.add_comm 3 k]
    unfold runFormAgent
    have e1 : k + 3 = (k + 2) + 1 := rfl
    rw [e1, runAgentGo_const_step exec 0 [] (k + 2) (by decide)]
    have e2 : k + 2 = (k + 1) + 1 := rfl
    rw [e2, runAgentGo_const_step exec 1 _ (k + 1) (by decide)]
    rw [runAgentGo_guard_fires constClickOracle exec 2 0 _ k (by decide)]
    rfl

/-- Witness for C2 with an always-succeeding executor and the default
50-step ceiling. -/
theorem agent_loop_guard_terminates_witness :
    runFormAgent constClickOracle (fun _ => true) 50 =
      ⟨false, 3, "Action loop detected: click_button - Next"⟩ :=
  (agent_loop_guard_terminates (fun _ => true) 50 (by decide)).2

/-- Positions reported by the button search carry a text match and sit in
the page list. -/
theorem findBtnAux_spec (target : String) :
    ∀ (l : List BtnElem) (j i : Nat) (b : BtnElem),
      findBtnAux target l j = some (i, b) →
      j ≤ i ∧ l.get? (i - j) = some b ∧ strIncludesCI b.text target = true := by
  intro l
  induction l with
  | nil => intro j i b h; simp [findBtnAux] at h
  | cons c rest ih =>
    intro j i b h
    unfold findBtnAux at h
    split at h
    · rename_i hmatch
      injection h with h1
      injection h1 with hji hcb
      subst hji; subst hcb
      exact ⟨Nat.le_refl j, by simp, hmatch⟩
    · obtain ⟨hle, hget, htext⟩ := ih (j + 1) i b h
      refine ⟨Nat.le_of_succ_le hle, ?_, htext⟩
      have : i - j = (i - (j + 1)) + 1 := by omega
      rw [this]
      simpa using hget

/-- The button search fails when no button text matches. -/
theorem findBtnAux_none (target : String) :
    ∀ (l : List BtnElem) (j : Nat),
      (∀ b ∈ l, strIncludesCI b.text target = false) →
      findBtnAux target l j = none := by
  intro l
  induction l with
  | nil => intro j _; rfl
  | cons c rest ih =>
    intro j hall
    unfold findBtnAux
    rw [if_neg (by simp [hall c (List.mem_cons_self c rest)])]
    exact ih (j + 1) (fun b hb => hall b (List.mem_cons_of_mem c hb))

/-- C6 counterexample: a visible, enabled, fully actionable button with a
long `other`-typed text (30 characters or more) is omitted from the
observed button set, and so is every visible enabled button of the tool's
own overlay UI — yet `click_button` finds and clicks both.  The target
matched no offered button and still succeeded, and buttons outside the
observed, enabled set were clicked. -/
theorem click_button_ignores_observed_set :
    observedButtons
        [⟨"open the preferences panel for more", "", false, false, false, false,
          false, false, true, false⟩] = [] ∧
    executeClickButton
        [⟨"open the preferences panel for more", "", false, false, false, false,
          false, false, true, false⟩] "preferences" = (true, some 0) ∧
    observedButtons
        [⟨"Start autofill", "", false, false, false, false, false, false, true, true⟩]
      = [] ∧
    executeClickButton
        [⟨"Start autofill", "", false, false, false, false, false, false, true, true⟩]
        "autofill" = (true, some 0) := by
  refine ⟨by decide, by decide, rfl, by decide⟩

/-- C6 amended: `click_button` requires the target to fuzzy-match
(case-insensitive substring) the text of some button element on the live
page; the first matching element is clicked only when it passes both the
enabled check and the click actionability check (visible, receiving
events), a target matching no button element fails with no click, and a
`false` return means nothing was clicked — but membership in the latest
observation's offered button set is not enforced, so a visible enabled
button outside it (long-texted, or in the tool's own overlay UI) can
still be clicked. -/
theorem click_button_requires_text_match (page : List BtnElem) (target : String) :
    (∀ i : Nat, (executeClickButton page target).2 = some i →
      (∃ b : BtnElem, page.get? i = some b ∧ strIncludesCI b.text target = true ∧
        isDisabledBtn b = false ∧ clickActionable b = true) ∧
      (executeClickButton page target).1 = true) ∧
    ((∀ b ∈ page, strIncludesCI b.text target = false) →
      executeClickButton page target = (false, none)) ∧
    ((executeClickButton page target).1 = false →
      (executeClickButton page target).2 = none) := by
  refine ⟨?_, ?_, ?_⟩
  · intro i hclick
    unfold executeClickButton at hclick ⊢
    split at hclick
    · simp at hclick
    · rename_i hne
      rw [if_neg hne]
      rcases hfind : findBtnAux target page 0 with _ | ⟨i0, b⟩
      · rw [hfind] at hclick; simp at hclick
      · rw [hfind] at hclick
        dsimp only at hclick ⊢
        by_cases hdis : isDisabledBtn b = true
        · rw [if_pos hdis] at hclick; simp at hclick
        · rw [Bool.not_eq_true] at hdis
          rw [if_neg (by simp [hdis])] at hclick
          rw [if_neg (by simp [hdis])]
          by_cases hact : clickActionable b = true
          · rw [if_neg (by simp [hact])] at hclick
            rw [if_neg (by simp [hact])]
            have hi : i0 = i := by simpa using hclick
            subst hi
            obtain ⟨_, hget, htext⟩ := findBtnAux_spec target page 0 i0 b hfind
            rw [Nat.sub_zero] at hget
            exact ⟨⟨b, hget, htext, hdis, hact⟩, rfl⟩
          · rw [Bool.not_eq_true] at hact
            rw [if_pos (by simp [hact])] at hclick
            simp at hclick
  · intro hall
    unfold executeClickButton
    by_cases hne : target = ""
    · rw [if_pos hne]
    · rw [if_neg hne, findBtnAux_none target page 0 hall]
  · intro hfalse
    unfold executeClickButton at hfalse ⊢
    split at hfalse
    · rename_i he; rw [if_pos he]
    · rename_i hne
      rw [if_neg hne]
      rcases hfind : findBtnAux target page 0 with _ | ⟨i0, b⟩
      · rfl
      · rw [hfind] at hfalse
        dsimp only at hfalse ⊢
        by_cases hdis : isDisabledBtn b = true
        · rw [if_pos hdis]
        · rw [if_neg hdis] at hfalse
          rw [if_neg hdis]
          by_cases hact : clickActionable b = true
          · rw [if_neg (by simp [hact])] at hfalse
            simp at hfalse
          · rw [Bool.not_eq_true] at hact
            rw [if_pos (by simp [hact])]

/-- Witness for C6's amended statement: a target matching no button on the
page fails without clicking anything. -/
theorem click_button_requires_text_match_witness :
    executeClickButton
        [⟨"Next", "", false, false, false, false, false, false, true, false⟩]
        "Unrelated" = (false, none) :=
  (click_button_requires_text_match
    [⟨"Next", "", false, false, false, false, false, false, true, false⟩]
    "Unrelated").2.1 (by decide)
